import Mathlib

/-!
Verification of the `/drive` command module (`src/module/commands/gdrive.py`).

The module has three functions:
* `drive` — the `/drive` command entry point;
* `drive_handler` — the callback for every keyboard button press;
* `get_files_keyboard` — the pure keyboard-grid builder.

The embedding below translates each of them into Lean.  The two handlers are
modelled as functions from their inputs and an environment of external
collaborators (drive client, locale table) to the list of effects they perform,
in order.  An `Effect` records a completed interaction with a collaborator; a
call that raises an exception produces no effect and aborts the straight-line
code it occurs in.  Only the calls inside the regular-file branch of
`drive_handler` may fail in the model (that is the only code under a
`try`/`except` in the source); which of them fails is driven by a `FailFlags`
record.
-/

namespace Gdrive

/-- Python's `s.replace(pat, repl)` on explicit character lists: replaces the
leftmost occurrence of `pat`, then continues scanning after the inserted
replacement; all (non-overlapping, left-to-right) occurrences are replaced,
not only a leading one.  (Python's behaviour for an empty pattern is not
needed here; this model leaves the string unchanged in that case.) -/
def pyReplace (pat repl : List Char) : List Char → List Char
  | [] => []
  | a :: s =>
    if h : pat ≠ [] ∧ pat.isPrefixOf (a :: s) then
      repl ++ pyReplace pat repl ((a :: s).drop pat.length)
    else
      a :: pyReplace pat repl s
termination_by s => s.length
decreasing_by
  · simp only [List.length_drop, List.length_cons]
    have : 0 < pat.length := List.length_pos.mpr h.1
    omega
  · simp

/-- Python's `s.replace(pat, repl)` on `String`. -/
def pyStrReplace (s pat repl : String) : String :=
  ⟨pyReplace pat.data repl.data s.data⟩

/-- Whether `pat` occurs as a contiguous substring of `s` (Python's `pat in s`). -/
def containsSub (pat : List Char) : List Char → Bool
  | [] => pat.isEmpty
  | a :: s => pat.isPrefixOf (a :: s) || containsSub pat s

/-- `telegram.InlineKeyboardButton`, restricted to the two fields the module uses. -/
structure InlineKeyboardButton where
  text : String
  callback_data : String
deriving DecidableEq

/-- A value of the `formats` dict in `get_files_keyboard`: the dict mixes
string values (the icons) and the stray integer `10` coming from the
malformed entry `dict.fromkeys([' a', 'b', 'c'], 10)`. -/
inductive PyVal where
  | str (s : String)
  | int (n : Nat)
deriving DecidableEq

/-- Python's `str()` of a `PyVal`, as used when the value is interpolated
into the button label f-string. -/
def PyVal.pyStr : PyVal → String
  | .str s => s
  | .int n => toString n

/-- The `formats` dict of `get_files_keyboard`, as the ordered list of
insertions performed by the `**`-merges (later insertions overwrite earlier
ones, so `"c"` ends up mapped to the source-code icon, not to `10`). -/
def formatsEntries : List (String × PyVal) :=
  [("pdf", .str "📕 "),
   (" a", .int 10), ("b", .int 10), ("c", .int 10),
   ("doc", .str "📄 "), ("docx", .str "📄 "), ("txt", .str "📄 "),
   ("jpg", .str "📷 "), ("png", .str "📷 "), ("gif", .str "📷 "),
   ("rar", .str "📦 "), ("zip", .str "📦 "),
   ("out", .str "⚙ "), ("exe", .str "⚙ "),
   ("c", .str "💻 "), ("cpp", .str "💻 "), ("h", .str "💻 "), ("py", .str "💻 "),
   ("java", .str "💻 "), ("js", .str "💻 "), ("html", .str "💻 "), ("php", .str "💻 ")]

/-- `formats.get(key, default)`: last insertion wins, as in a Python dict. -/
def formatsGet (key : String) (default : PyVal) : PyVal :=
  match formatsEntries.reverse.lookup key with
  | some v => v
  | none => default

/-- A `pydrive2` `GoogleDriveFile`, restricted to the fields the module reads.
`parents` keeps only the parent ids (the source reads `parents[i]['id']`),
`exportLinkPdf` is `exportLinks['application/pdf']`, and `fileSize` is the
integer value of the `fileSize` field. -/
structure GoogleDriveFile where
  id : String
  title : String
  mimeType : String
  parents : List String
  fileSize : Int
  alternateLink : String
  exportLinkPdf : String
deriving DecidableEq

def folderMime : String := "application/vnd.google-apps.folder"

def docMime : String := "application/vnd.google-apps.document"

/-- The root folder id hard-coded in `drive_handler`. -/
def rootFolderId : String := "0ADXK_Yx5406vUk9PVA"

/-- Python's `"a.b.c".split(".")`: split on every dot, keeping empty pieces
(always returns at least one piece). -/
def splitOnDot : List Char → List (List Char)
  | [] => [[]]
  | c :: t =>
    if c = '.' then [] :: splitOnDot t
    else
      match splitOnDot t with
      | [] => [[c]]
      | r :: rs => (c :: r) :: rs

/-- Python's `title[-5:]`: the trailing 5 characters (the whole string when
shorter). -/
def last5 (title : String) : List Char :=
  title.data.drop (title.data.length - 5)

/-- The `file_format` computation of `get_files_keyboard`: take the last 5
characters of the title, split on `"."`, keep the last piece. -/
def fileFormatOf (title : String) : String :=
  ⟨(splitOnDot (last5 title)).getLastD []⟩

/-- The icon chosen for a file by `get_files_keyboard`. -/
def iconOf (file : GoogleDriveFile) : PyVal :=
  if file.mimeType = folderMime then .str "🗂 "
  else formatsGet (fileFormatOf file.title) (.str "📄 ")

/-- The `InlineKeyboardButton` built for one file:
`text=f"{icon} {file['title']}"`, `callback_data="drive_file_" + file['id']`. -/
def mkButton (file : GoogleDriveFile) : InlineKeyboardButton :=
  { text := (iconOf file).pyStr ++ " " ++ file.title
    callback_data := "drive_file_" ++ file.id }

/-- Modify the `n`-th element of a list in place; `none` when `n` is out of
bounds (a Python `IndexError`). -/
def modifyNth? (f : α → α) : Nat → List α → Option (List α)
  | _, [] => none
  | 0, x :: xs => some (f x :: xs)
  | n + 1, x :: xs => (modifyNth? f n xs).map (x :: ·)

/-- One iteration of the `get_files_keyboard` loop at index `i`:
`keyboard.append([button])` when `i % row_len == 0`, otherwise
`keyboard[i // row_len].append(button)` (which can raise `IndexError`,
modelled by `none`). -/
def keyboardStep (row_len i : Nat) (btn : InlineKeyboardButton)
    (keyboard : List (List InlineKeyboardButton)) :
    Option (List (List InlineKeyboardButton)) :=
  if i % row_len = 0 then some (keyboard ++ [[btn]])
  else modifyNth? (· ++ [btn]) (i / row_len) keyboard

/-- The `for i, file in enumerate(file_list)` loop of `get_files_keyboard`. -/
def keyboardLoop (row_len : Nat) :
    List GoogleDriveFile → Nat → List (List InlineKeyboardButton) →
    Option (List (List InlineKeyboardButton))
  | [], _, keyboard => some keyboard
  | file :: rest, i, keyboard =>
    match keyboardStep row_len i (mkButton file) keyboard with
    | none => none
    | some kb => keyboardLoop row_len rest (i + 1) kb

/-- `get_files_keyboard(file_list, row_len)` (the source defaults `row_len`
to 2; call sites here always pass it explicitly).  `none` models an
uncaught `IndexError` in the loop. -/
def get_files_keyboard (file_list : List GoogleDriveFile) (row_len : Nat) :
    Option (List (List InlineKeyboardButton)) :=
  keyboardLoop row_len file_list 0 []

/-- Grouping of a list into consecutive blocks of `w` elements (the last
block possibly shorter).  This is the specification the keyboard loop is
proved against. -/
def chunk (w : Nat) : List α → List (List α)
  | [] => []
  | a :: l => (a :: l.take (w - 1)) :: chunk w (l.drop (w - 1))
termination_by l => l.length
decreasing_by simp only [List.length_drop, List.length_cons]; omega

/-- The locale text ids the module uses (`module.data.vars.TEXT_IDS`). -/
inductive TextID where
  | GROUP_WARNING | DRIVE_HEADER | DRIVE_ERROR_DEVS | DRIVE_ERROR_GFILE
  | BACK_BUTTON_TEXT | DRIVE_ERROR_TOO_BIG
deriving DecidableEq

/-- A completed interaction of a handler with one of its collaborators, in
the order it happens.  Message payloads are recorded up to the fields the
claims talk about (texts, keyboards, document names). -/
inductive Effect where
  | checkLog (command : String)
  | listFiles (folder : Option String)
  | getFile (fileId : String)
  | sendMessage (chat_id : Int) (text : String)
  | sendMessageMarkup (chat_id : Int) (text : String)
      (kb : List (List InlineKeyboardButton))
  | editMessageText (chat_id message_id : Int) (text : String)
  | editMessageMarkup (chat_id message_id : Int) (text : String)
      (kb : List (List InlineKeyboardButton))
  | sendChatAction (chat_id : Int) (action : String)
  | sendDocument (chat_id : Int) (documentName : String)
  | answerCallback
  | logError (header : String)
deriving DecidableEq

/-- The external collaborators: the drive client (`drive_utils.get_file`,
`drive_utils.list_files`, the latter returning `none` on failure) and the
locale table (`get_locale` plus the `PLACE_HOLDER` marker used for
substitution). -/
structure DriveEnv where
  get_file : String → GoogleDriveFile
  list_files : Option String → Option (List GoogleDriveFile)
  get_locale : String → TextID → String
  place_holder : String

/-- Which of the calls inside the `try` block of the regular-file branch of
`drive_handler` raises an exception (each flag names the first failing call;
calls before it succeed). -/
structure FailFlags where
  get_file_fails : Bool
  content_fails : Bool
  chat_action_fails : Bool
  send_document_fails : Bool
  send_message_fails : Bool
deriving DecidableEq

/-- No call in the regular-file branch fails. -/
def noFailure : FailFlags := ⟨false, false, false, false, false⟩

/-- The `/drive` entry point (`drive` in the source): effects it performs
given the chat id and the user's locale. -/
def drive (env : DriveEnv) (chat_id : Int) (locale : String) : List Effect :=
  Effect.checkLog "drive" ::
  if chat_id < 0 then
    [Effect.sendMessage chat_id
      (pyStrReplace (env.get_locale locale .GROUP_WARNING) env.place_holder "/drive")]
  else
    Effect.listFiles none ::
    match env.list_files none with
    | some (f :: fs) =>
      [Effect.sendMessageMarkup chat_id (env.get_locale locale .DRIVE_HEADER)
        ((get_files_keyboard (f :: fs) 3).getD [])]
    | _ =>
      -- Python's `if file_list:` is false both for `None` and for `[]`.
      [Effect.sendMessage chat_id (env.get_locale locale .DRIVE_ERROR_DEVS)]

/-- The "too big" message: locale text with the placeholder replaced by the
file's `alternateLink`. -/
def tooBigText (env : DriveEnv) (locale link : String) : String :=
  pyStrReplace (env.get_locale locale .DRIVE_ERROR_TOO_BIG) env.place_holder link

/-- The body of the `try` block of the regular-file branch of
`drive_handler` (lines 104–116): returns the effects performed and, when one
of the calls raises, the name of the raising call. -/
def fileBranch (env : DriveEnv) (flags : FailFlags) (chat_id : Int)
    (locale : String) (fetched : GoogleDriveFile) :
    List Effect × Option String :=
  if flags.get_file_fails then ([], some "get_file")
  else
    let file_d := env.get_file fetched.id
    if file_d.fileSize < 50000000 then
      -- `int(file_d['fileSize']) < 5e7`
      if flags.content_fails then ([Effect.getFile fetched.id], some "GetContentIOBuffer")
      else if flags.chat_action_fails then ([Effect.getFile fetched.id], some "sendChatAction")
      else if flags.send_document_fails then
        ([Effect.getFile fetched.id, Effect.sendChatAction chat_id "UPLOAD_DOCUMENT"],
         some "sendDocument")
      else
        ([Effect.getFile fetched.id, Effect.sendChatAction chat_id "UPLOAD_DOCUMENT",
          -- the document is named after `fetched_file['title']`
          Effect.sendDocument chat_id fetched.title], none)
    else
      if flags.send_message_fails then ([Effect.getFile fetched.id], some "sendMessage")
      else
        ([Effect.getFile fetched.id,
          Effect.sendMessage chat_id (tooBigText env locale file_d.alternateLink)], none)

/-- The single-button back row appended for a non-root parent. -/
def backRow (env : DriveEnv) (locale parentId : String) :
    List InlineKeyboardButton :=
  [{ text := env.get_locale locale .BACK_BUTTON_TEXT
     callback_data := "drive_file_" ++ parentId }]

/-- The callback handler (`drive_handler` in the source): effects it
performs given the raw callback payload, the chat/message ids and locale.
Note the early `return` in the failed-listing branch: it skips the final
`update.callback_query.answer()`. -/
def drive_handler (env : DriveEnv) (flags : FailFlags) (callback_data : String)
    (chat_id message_id : Int) (locale : String) : List Effect :=
  let query_data := pyStrReplace callback_data "drive_file_" ""
  let fetched := env.get_file query_data
  Effect.getFile query_data ::
  if fetched.mimeType = folderMime then
    Effect.listFiles (some fetched.id) ::
    match env.list_files (some fetched.id) with
    | none =>
      -- `return`: the callback is never answered on this path
      [Effect.editMessageText chat_id message_id
        (env.get_locale locale .DRIVE_ERROR_DEVS)]
    | some file_list =>
      let keyboard := (get_files_keyboard file_list 2).getD []
      let keyboard :=
        if fetched.parents ≠ [] ∧ fetched.parents.headD "" ≠ rootFolderId then
          keyboard ++ [backRow env locale (fetched.parents.headD "")]
        else keyboard
      [Effect.editMessageMarkup chat_id message_id (fetched.title ++ ":") keyboard,
       Effect.answerCallback]
  else if fetched.mimeType = docMime then
    [Effect.sendMessage chat_id
      (pyStrReplace (env.get_locale locale .DRIVE_ERROR_GFILE) env.place_holder
        fetched.exportLinkPdf),
     Effect.answerCallback]
  else
    let res := fileBranch env flags chat_id locale fetched
    res.1 ++
      (match res.2 with
       | some _ => [Effect.logError "drive_handler"]
       | none => []) ++
      [Effect.answerCallback]

/-! Sample data used by concrete instances. -/

def samplePdf : GoogleDriveFile :=
  ⟨"1", "report.pdf", "application/pdf", [], 0, "", ""⟩

def sampleJpg : GoogleDriveFile :=
  ⟨"2", "photo.jpg", "image/jpeg", [], 0, "", ""⟩

def sampleTxt : GoogleDriveFile :=
  ⟨"3", "notes.txt", "text/plain", [], 0, "", ""⟩

def samplePdf2 : GoogleDriveFile :=
  ⟨"4", "abct.pdf", "application/pdf", [], 0, "", ""⟩

/-- A folder whose parent is not the configured root. -/
def sampleFolder : GoogleDriveFile :=
  ⟨"fid", "My Folder", "application/vnd.google-apps.folder", ["pid"], 0, "", ""⟩

def smallFile : GoogleDriveFile :=
  ⟨"sid", "small.pdf", "application/pdf", [], 49999999, "http://alt/s", ""⟩

def bigFile : GoogleDriveFile :=
  ⟨"bid", "big.pdf", "application/pdf", [], 60000000, "http://alt/b", ""⟩

def envFolderOk : DriveEnv :=
  ⟨fun _ => sampleFolder, fun _ => some [samplePdf], fun _ _ => "L", "%"⟩

def envFolderFail : DriveEnv :=
  ⟨fun _ => sampleFolder, fun _ => none, fun _ _ => "L", "%"⟩

def envSmall : DriveEnv :=
  ⟨fun _ => smallFile, fun _ => none, fun _ _ => "L", "%"⟩

def envBig : DriveEnv :=
  ⟨fun _ => bigFile, fun _ => none, fun _ _ => "L", "%"⟩

/-- Every call succeeds except `bot.sendDocument`. -/
def failDocFlags : FailFlags := ⟨false, false, false, true, false⟩

/-- Whether an effect is a report to the error collaborator (`log_error`). -/
def isLogError : Effect → Bool
  | .logError _ => true
  | _ => false

theorem chunk_flatten (w : Nat) : ∀ l : List α, (chunk w l).flatten = l
  | [] => by simp [chunk]
  | a :: l => by
    rw [chunk]
    simp only [List.flatten_cons, List.cons_append]
    rw [chunk_flatten w (l.drop (w - 1))]
    simp [List.take_append_drop]
termination_by l => l.length
decreasing_by simp only [List.length_drop, List.length_cons]; omega

theorem chunk_length (w : Nat) (hw : 0 < w) :
    ∀ l : List α, (chunk w l).length = (l.length + w - 1) / w
  | [] => by simp [chunk, Nat.div_eq_of_lt (show w - 1 < w by omega)]
  | a :: l => by
    rw [chunk]
    simp only [List.length_cons, List.length_drop]
    rw [chunk_length w hw (l.drop (w - 1))]
    simp only [List.length_drop]
    have h1 : l.length + 1 + w - 1 = l.length + w := by omega
    rw [h1, Nat.add_div_right _ hw]
    rcases Nat.lt_or_ge l.length (w - 1) with h | h
    · have h2 : l.length - (w - 1) = 0 := by omega
      rw [h2]
      rw [Nat.div_eq_of_lt (show 0 + w - 1 < w by omega),
          Nat.div_eq_of_lt (show l.length < w by omega)]
    · have h2 : l.length - (w - 1) + w - 1 = l.length := by omega
      rw [h2]
termination_by l => l.length
decreasing_by simp only [List.length_drop, List.length_cons]; omega

theorem chunk_ne_nil_iff (w : Nat) (l : List α) : chunk w l = [] ↔ l = [] := by
  cases l <;> simp [chunk]

theorem chunk_append_singleton_of_mod_eq_zero (w : Nat) (hw : 0 < w) (b : α) :
    ∀ l : List α, l.length % w = 0 → chunk w (l ++ [b]) = chunk w l ++ [[b]]
  | [], _ => by simp [chunk]
  | a :: l, h => by
    have hlen : w - 1 ≤ l.length := by
      rcases Nat.lt_or_ge l.length (w - 1) with hlt | hge
      · exfalso
        simp only [List.length_cons] at h
        rw [Nat.mod_eq_of_lt (show l.length + 1 < w by omega)] at h
        omega
      · exact hge
    have hd : ((l ++ [b]).drop (w - 1)) = l.drop (w - 1) ++ [b] :=
      List.drop_append_of_le_length hlen
    have ht : ((l ++ [b]).take (w - 1)) = l.take (w - 1) :=
      List.take_append_of_le_length hlen
    have hmod : (l.drop (w - 1)).length % w = 0 := by
      simp only [List.length_drop]
      have he : l.length + 1 = l.length - (w - 1) + w := by omega
      have := h
      simp only [List.length_cons, he, Nat.add_mod_right] at this
      exact this
    show chunk w (a :: (l ++ [b])) = chunk w (a :: l) ++ [[b]]
    rw [chunk, chunk]
    simp only [List.cons_append]
    rw [ht, hd, chunk_append_singleton_of_mod_eq_zero w hw b (l.drop (w - 1)) hmod]
termination_by l => l.length
decreasing_by simp only [List.length_drop, List.length_cons]; omega

theorem modifyNth_chunk (w : Nat) (hw : 0 < w) (b : α) :
    ∀ l : List α, l.length % w ≠ 0 →
      modifyNth? (· ++ [b]) (l.length / w) (chunk w l) = some (chunk w (l ++ [b]))
  | [], h => by simp at h
  | a :: l, h => by
    simp only [List.length_cons] at h
    rcases Nat.lt_or_ge l.length (w - 1) with hlt | hge
    · have ht : l.take (w - 1) = l := List.take_of_length_le (by omega)
      have hd : l.drop (w - 1) = [] := List.drop_of_length_le (by omega)
      have ht2 : (l ++ [b]).take (w - 1) = l ++ [b] :=
        List.take_of_length_le (by simp; omega)
      have hd2 : (l ++ [b]).drop (w - 1) = [] :=
        List.drop_of_length_le (by simp; omega)
      have hdiv : (l.length + 1) / w = 0 := Nat.div_eq_of_lt (by omega)
      show modifyNth? _ ((l.length + 1) / w) _ = _
      rw [hdiv]
      simp only [chunk, List.cons_append, ht, hd, ht2, hd2, modifyNth?]
    · have hne : l.length ≠ w - 1 := by
        intro he
        apply h
        have : l.length + 1 = w := by omega
        rw [this, Nat.mod_self]
      have hge' : w ≤ l.length := by omega
      have heq : l.length + 1 = (l.drop (w - 1)).length + w := by
        simp only [List.length_drop]; omega
      have hmod : (l.drop (w - 1)).length % w ≠ 0 := by
        intro hz
        apply h
        rw [heq, Nat.add_mod_right, hz]
      have hdiv : (l.length + 1) / w = (l.drop (w - 1)).length / w + 1 := by
        rw [heq, Nat.add_div_right _ hw]
      have ht2 : (l ++ [b]).take (w - 1) = l.take (w - 1) :=
        List.take_append_of_le_length (by omega)
      have hd2 : (l ++ [b]).drop (w - 1) = l.drop (w - 1) ++ [b] :=
        List.drop_append_of_le_length (by omega)
      show modifyNth? _ ((l.length + 1) / w) _ = _
      rw [hdiv]
      simp only [chunk, List.cons_append, ht2, hd2, modifyNth?]
      rw [modifyNth_chunk w hw b (l.drop (w - 1)) hmod]
      simp [Option.map_some]
termination_by l => l.length
decreasing_by simp only [List.length_drop, List.length_cons]; omega

theorem keyboardLoop_eq_chunk (w : Nat) (hw : 0 < w) :
    ∀ (rest : List GoogleDriveFile) (btns : List InlineKeyboardButton),
      keyboardLoop w rest btns.length (chunk w btns) =
        some (chunk w (btns ++ rest.map mkButton))
  | [], btns => by simp [keyboardLoop]
  | file :: rest, btns => by
    have hstep : keyboardStep w btns.length (mkButton file) (chunk w btns) =
        some (chunk w (btns ++ [mkButton file])) := by
      rw [keyboardStep]
      by_cases hmod : btns.length % w = 0
      · rw [if_pos hmod, chunk_append_singleton_of_mod_eq_zero w hw _ btns hmod]
      · rw [if_neg hmod, modifyNth_chunk w hw _ btns hmod]
    rw [keyboardLoop, hstep]
    have hl : btns.length + 1 = (btns ++ [mkButton file]).length := by simp
    rw [hl]
    show keyboardLoop w rest (btns ++ [mkButton file]).length
        (chunk w (btns ++ [mkButton file])) = _
    rw [keyboardLoop_eq_chunk w hw rest (btns ++ [mkButton file])]
    simp

theorem get_files_keyboard_eq_chunk (w : Nat) (hw : 0 < w)
    (files : List GoogleDriveFile) :
    get_files_keyboard files w = some (chunk w (files.map mkButton)) := by
  have := keyboardLoop_eq_chunk w hw files []
  simpa [get_files_keyboard, chunk] using this

theorem chunk_dropLast_full (w : Nat) (hw : 0 < w) :
    ∀ l : List α, ∀ r ∈ (chunk w l).dropLast, r.length = w
  | [] => by simp [chunk]
  | a :: l => by
    intro r hr
    by_cases hd : l.drop (w - 1) = []
    · rw [chunk, hd] at hr
      simp [chunk] at hr
    · have hne : chunk w (l.drop (w - 1)) ≠ [] := by
        rw [Ne, chunk_ne_nil_iff]; exact hd
      rw [chunk, List.dropLast_cons_of_ne_nil hne] at hr
      rcases List.mem_cons.mp hr with h1 | h2
      · have hlen : w - 1 ≤ l.length := by
          by_contra hc
          exact hd (List.drop_eq_nil_iff.mpr (by omega))
        rw [h1]
        simp only [List.length_cons, List.length_take]
        omega
      · exact chunk_dropLast_full w hw (l.drop (w - 1)) r h2
termination_by l => l.length
decreasing_by simp only [List.length_drop, List.length_cons]; omega

theorem chunk_getLast_len (w : Nat) (hw : 0 < w) :
    ∀ l : List α, ∀ r, (chunk w l).getLast? = some r →
      r.length = if l.length % w = 0 then w else l.length % w
  | [] => by simp [chunk]
  | a :: l => by
    intro r hr
    by_cases hd : l.drop (w - 1) = []
    · have hlen : l.length ≤ w - 1 := by
        have := List.drop_eq_nil_iff.mp hd
        omega
      have ht : l.take (w - 1) = l := List.take_of_length_le hlen
      rw [chunk, hd] at hr
      simp only [chunk, List.getLast?_singleton, Option.some.injEq] at hr
      rw [← hr, ht]
      simp only [List.length_cons]
      rcases Nat.lt_or_ge (l.length + 1) w with hlt | hge
      · rw [Nat.mod_eq_of_lt hlt, if_neg (by omega)]
      · have : l.length + 1 = w := by omega
        rw [this, Nat.mod_self, if_pos rfl]
    · have hne : chunk w (l.drop (w - 1)) ≠ [] := by
        rw [Ne, chunk_ne_nil_iff]; exact hd
      have hlen : w - 1 ≤ l.length := by
        by_contra hc
        exact hd (List.drop_eq_nil_iff.mpr (by omega))
      obtain ⟨r1, rs, hrest⟩ := List.exists_cons_of_ne_nil hne
      rw [chunk, hrest, List.getLast?_cons_cons] at hr
      have := chunk_getLast_len w hw (l.drop (w - 1)) r (by rw [hrest]; exact hr)
      have heq : l.length + 1 = (l.drop (w - 1)).length + w := by
        simp only [List.length_drop]; omega
      simp only [List.length_cons, heq, Nat.add_mod_right]
      exact this
termination_by l => l.length
decreasing_by simp only [List.length_drop, List.length_cons]; omega

/-- C1: for every list of `N` item descriptors and every positive row width
`W`, `get_files_keyboard` returns (without error) a grid of `⌈N/W⌉` rows
(`⌈N/W⌉ = (N + W - 1) / W`), each row of length `W` except possibly the
last, whose length is `N % W` (or `W` when `N % W = 0`), and the total
number of buttons over all rows equals `N`. -/
theorem get_files_keyboard_shape (files : List GoogleDriveFile) (w : Nat)
    (hw : 0 < w) :
    ∃ kb, get_files_keyboard files w = some kb ∧
      kb.length = (files.length + w - 1) / w ∧
      (∀ r ∈ kb.dropLast, r.length = w) ∧
      (∀ r, kb.getLast? = some r →
        r.length = if files.length % w = 0 then w else files.length % w) ∧
      (kb.map List.length).sum = files.length := by
  refine ⟨chunk w (files.map mkButton), get_files_keyboard_eq_chunk w hw files,
    ?_, ?_, ?_, ?_⟩
  · rw [chunk_length w hw, List.length_map]
  · exact fun r hr => chunk_dropLast_full w hw _ r hr
  · intro r hr
    have := chunk_getLast_len w hw (files.map mkButton) r hr
    rwa [List.length_map] at this
  · rw [← List.length_flatten, chunk_flatten, List.length_map]

/-- Witness for C1 at three items and row width 2. -/
theorem get_files_keyboard_shape_witness :
    0 < 2 ∧
      ∃ kb, get_files_keyboard [samplePdf, sampleJpg, sampleTxt] 2 = some kb ∧
        kb.length = ([samplePdf, sampleJpg, sampleTxt].length + 2 - 1) / 2 ∧
        (∀ r ∈ kb.dropLast, r.length = 2) ∧
        (∀ r, kb.getLast? = some r →
          r.length = if [samplePdf, sampleJpg, sampleTxt].length % 2 = 0 then 2
            else [samplePdf, sampleJpg, sampleTxt].length % 2) ∧
        (kb.map List.length).sum = [samplePdf, sampleJpg, sampleTxt].length :=
  ⟨by decide, get_files_keyboard_shape [samplePdf, sampleJpg, sampleTxt] 2 (by decide)⟩

/-- C10: the keyboard builder is total for every input list and positive
row width — the `keyboard[i // row_len]` access never raises an
`IndexError` (the result is never the `none` that models one) — and the
empty input yields the empty grid. -/
theorem get_files_keyboard_total (files : List GoogleDriveFile) (w : Nat)
    (hw : 0 < w) :
    (∃ kb, get_files_keyboard files w = some kb) ∧
      get_files_keyboard [] w = some [] :=
  ⟨⟨chunk w (files.map mkButton), get_files_keyboard_eq_chunk w hw files⟩, rfl⟩

/-- Witness for C10 at three items and row width 2. -/
theorem get_files_keyboard_total_witness :
    0 < 2 ∧
      ((∃ kb, get_files_keyboard [samplePdf, sampleJpg, sampleTxt] 2 = some kb) ∧
        get_files_keyboard [] 2 = some []) :=
  ⟨by decide, get_files_keyboard_total [samplePdf, sampleJpg, sampleTxt] 2 (by decide)⟩

/-- C7 fails as stated: the labels do not have a single space between the
icon glyph and the display name.  Each icon entry of the `formats` dict
already ends in a space and the f-string `f"{icon} {file['title']}"` adds
another, so the actual label is icon glyph + two spaces + name. -/
theorem keyboard_example_single_space_false :
    get_files_keyboard [samplePdf, sampleJpg, sampleTxt] 2 ≠
      some [[⟨"📕 report.pdf", "drive_file_1"⟩, ⟨"📷 photo.jpg", "drive_file_2"⟩],
            [⟨"📄 notes.txt", "drive_file_3"⟩]] := by
  decide

/-- C7 (amended): for the three non-folder items named `report.pdf`,
`photo.jpg`, `notes.txt` with row width 2 the builder returns exactly two
rows, the first with the buttons for `report.pdf` and `photo.jpg`, the
second with the button for `notes.txt`; each label is the icon entry
(which itself ends in a space), one further space, and the display name,
i.e. glyph + two spaces + name. -/
theorem keyboard_example :
    get_files_keyboard [samplePdf, sampleJpg, sampleTxt] 2 =
      some [[⟨"📕  report.pdf", "drive_file_1"⟩, ⟨"📷  photo.jpg", "drive_file_2"⟩],
            [⟨"📄  notes.txt", "drive_file_3"⟩]] := by
  decide

/-- C8: the icon computed by the keyboard builder is a pure function of the
item's kind (folder vs. non-folder) and of the trailing 5-character
substring of its display name: two items agreeing on those agree on the
icon, whatever their other fields. -/
theorem icon_deterministic (f g : GoogleDriveFile)
    (hkind : f.mimeType = folderMime ↔ g.mimeType = folderMime)
    (htail : last5 f.title = last5 g.title) :
    iconOf f = iconOf g := by
  unfold iconOf
  by_cases hf : f.mimeType = folderMime
  · rw [if_pos hf, if_pos (hkind.mp hf)]
  · rw [if_neg hf, if_neg (fun hg => hf (hkind.mpr hg))]
    unfold fileFormatOf
    rw [htail]

/-- Witness for C8: `report.pdf` and `abct.pdf` share the trailing
substring `t.pdf`, so their icons agree. -/
theorem icon_deterministic_witness :
    (samplePdf.mimeType = folderMime ↔ samplePdf2.mimeType = folderMime) ∧
      last5 samplePdf.title = last5 samplePdf2.title ∧
      iconOf samplePdf = iconOf samplePdf2 :=
  ⟨by decide, by decide,
    icon_deterministic samplePdf samplePdf2 (by decide) (by decide)⟩

theorem pyReplace_del_length_le (pat : List Char) (s : List Char) :
    (pyReplace pat [] s).length ≤ s.length := by
  refine pyReplace.induct pat []
    (fun s => (pyReplace pat [] s).length ≤ s.length) ?_ ?_ ?_ s
  · simp [pyReplace]
  · intro a s h ih
    rw [pyReplace, dif_pos h]
    simp only [List.nil_append]
    exact le_trans ih (by simp)
  · intro a s h ih
    rw [pyReplace, dif_neg h]
    simpa using ih

theorem pyReplace_del_eq_self_iff (pat : List Char) (hpat : pat ≠ []) :
    ∀ s, pyReplace pat [] s = s ↔ containsSub pat s = false := by
  intro s
  refine pyReplace.induct pat []
    (fun s => pyReplace pat [] s = s ↔ containsSub pat s = false) ?_ ?_ ?_ s
  · obtain ⟨c, cs, rfl⟩ := List.exists_cons_of_ne_nil hpat
    simp [pyReplace, containsSub]
  · intro a s h ih
    constructor
    · intro heq
      exfalso
      have h1 := pyReplace_del_length_le pat (List.drop pat.length (a :: s))
      rw [pyReplace, dif_pos h, List.nil_append] at heq
      have h2 := congrArg List.length heq
      have hp : 0 < pat.length := List.length_pos.mpr h.1
      simp only [List.length_drop, List.length_cons] at h1 h2
      omega
    · intro hc
      exfalso
      simp [containsSub, h.2] at hc
  · intro a s h ih
    have hpre : pat.isPrefixOf (a :: s) = false := by
      by_cases hb : pat.isPrefixOf (a :: s)
      · exact absurd ⟨hpat, hb⟩ h
      · exact Bool.eq_false_iff.mpr hb
    rw [pyReplace, dif_neg h]
    constructor
    · intro heq
      have : pyReplace pat [] s = s := (List.cons.injEq _ _ _ _ ▸ heq).2
      simp [containsSub, hpre, ih.mp this]
    · intro hc
      simp only [containsSub, hpre, Bool.false_or] at hc
      rw [ih.mpr hc]

theorem pyReplace_del_append_left (pat : List Char) (hpat : pat ≠ [])
    (s : List Char) : pyReplace pat [] (pat ++ s) = pyReplace pat [] s := by
  obtain ⟨c, cs, rfl⟩ := List.exists_cons_of_ne_nil hpat
  rw [List.cons_append, pyReplace, dif_pos]
  · rw [List.nil_append, ← List.cons_append, List.drop_left]
  · refine ⟨by simp, ?_⟩
    rw [← List.cons_append]
    exact List.isPrefixOf_iff_prefix.mpr (List.prefix_append _ _)

theorem containsSub_eq_true_iff (pat : List Char) :
    ∀ s, containsSub pat s = true ↔ pat <:+: s
  | [] => by simp [containsSub, List.isEmpty_iff]
  | a :: s => by
    simp [containsSub, List.infix_cons_iff, containsSub_eq_true_iff pat s,
      List.isPrefixOf_iff_prefix]

/-- C9: the navigation handler's decoding removes every occurrence of
`"drive_file_"` from the callback payload, not only a leading prefix;
hence decoding the encoding `"drive_file_" ++ id` gives back exactly `id`
if and only if `id` itself contains no occurrence of `"drive_file_"`. -/
theorem decode_encode_iff (id : String) :
    pyStrReplace ("drive_file_" ++ id) "drive_file_" "" = id ↔
      ¬ "drive_file_".data <:+: id.data := by
  rw [String.ext_iff]
  show pyReplace "drive_file_".data [] ("drive_file_" ++ id).data = id.data ↔ _
  rw [String.data_append, pyReplace_del_append_left _ (by decide),
    pyReplace_del_eq_self_iff _ (by decide),
    ← containsSub_eq_true_iff]
  simp
/-- C5: invoking `/drive` from a group conversation (negative chat id)
sends the group-warning message (with the placeholder replaced by
`"/drive"`) and returns without ever calling the drive listing
operation. -/
theorem drive_group_short_circuit (env : DriveEnv) (chat_id : Int)
    (locale : String) (h : chat_id < 0) :
    drive env chat_id locale =
      [Effect.checkLog "drive",
       Effect.sendMessage chat_id
         (pyStrReplace (env.get_locale locale .GROUP_WARNING) env.place_holder
           "/drive")] ∧
      ∀ f, Effect.listFiles f ∉ drive env chat_id locale := by
  have he : drive env chat_id locale =
      [Effect.checkLog "drive",
       Effect.sendMessage chat_id
         (pyStrReplace (env.get_locale locale .GROUP_WARNING) env.place_holder
           "/drive")] := by
    simp only [drive, if_pos h]
  refine ⟨he, fun f hf => ?_⟩
  rw [he] at hf
  simp at hf

/-- Witness for C5 at chat id `-1`. -/
theorem drive_group_short_circuit_witness :
    (-1 : Int) < 0 ∧
      (drive envSmall (-1) "en" =
        [Effect.checkLog "drive",
         Effect.sendMessage (-1)
           (pyStrReplace (envSmall.get_locale "en" .GROUP_WARNING)
             envSmall.place_holder "/drive")] ∧
        ∀ f, Effect.listFiles f ∉ drive envSmall (-1) "en") :=
  ⟨by decide, drive_group_short_circuit envSmall (-1) "en" (by decide)⟩

/-- C2: in the folder branch of `drive_handler` (fetched item is a folder
and the listing succeeds): when the parent-chain is empty or the immediate
parent is the configured root folder id, no back-row is appended; otherwise
exactly one extra row with exactly one back button is appended, whose
action token is `"drive_file_" ++` the immediate parent's id. -/
theorem drive_handler_folder_back_row (env : DriveEnv) (flags : FailFlags)
    (cb : String) (chat msg : Int) (locale : String)
    (fetched : GoogleDriveFile) (file_list : List GoogleDriveFile)
    (hf : env.get_file (pyStrReplace cb "drive_file_" "") = fetched)
    (hmime : fetched.mimeType = folderMime)
    (hlist : env.list_files (some fetched.id) = some file_list) :
    ∃ base, get_files_keyboard file_list 2 = some base ∧
      ((fetched.parents = [] ∨ fetched.parents.headD "" = rootFolderId) →
        drive_handler env flags cb chat msg locale =
          [Effect.getFile (pyStrReplace cb "drive_file_" ""),
           Effect.listFiles (some fetched.id),
           Effect.editMessageMarkup chat msg (fetched.title ++ ":") base,
           Effect.answerCallback]) ∧
      (∀ p ps, fetched.parents = p :: ps → p ≠ rootFolderId →
        drive_handler env flags cb chat msg locale =
          [Effect.getFile (pyStrReplace cb "drive_file_" ""),
           Effect.listFiles (some fetched.id),
           Effect.editMessageMarkup chat msg (fetched.title ++ ":")
             (base ++
               [[⟨env.get_locale locale .BACK_BUTTON_TEXT, "drive_file_" ++ p⟩]]),
           Effect.answerCallback]) := by
  obtain ⟨base, hbase⟩ :
      ∃ kb, get_files_keyboard file_list 2 = some kb :=
    ⟨chunk 2 (file_list.map mkButton), get_files_keyboard_eq_chunk 2 (by omega) file_list⟩
  refine ⟨base, hbase, ?_, ?_⟩
  · intro hcase
    have hcond : ¬(fetched.parents ≠ [] ∧ fetched.parents.headD "" ≠ rootFolderId) := by
      rcases hcase with h1 | h2
      · simp [h1]
      · intro hc
        exact hc.2 h2
    simp only [drive_handler, hf, hmime, if_pos rfl, hlist, hbase, Option.getD_some,
      if_neg hcond]
    simp
  · intro p ps hp hne
    have hcond : fetched.parents ≠ [] ∧ fetched.parents.headD "" ≠ rootFolderId := by
      rw [hp]
      exact ⟨by simp, by simpa using hne⟩
    simp only [drive_handler, hf, hmime, if_pos rfl, hlist, hbase, Option.getD_some,
      if_pos hcond, backRow, hp, List.headD_cons]
    simp [hne]

/-- C3: in the regular-file branch (no call failing), a re-fetched size
strictly below 50,000,000 bytes gives exactly the uploading chat action
followed by the document send (and no link message), while a size at or
above 50,000,000 gives exactly the direct-download-link message (and never
the stream-and-send path). -/
theorem drive_handler_size_threshold (env : DriveEnv) (cb : String)
    (chat msg : Int) (locale : String) (fetched file_d : GoogleDriveFile)
    (hf : env.get_file (pyStrReplace cb "drive_file_" "") = fetched)
    (h1 : fetched.mimeType ≠ folderMime) (h2 : fetched.mimeType ≠ docMime)
    (hd : env.get_file fetched.id = file_d) :
    (file_d.fileSize < 50000000 →
      drive_handler env noFailure cb chat msg locale =
        [Effect.getFile (pyStrReplace cb "drive_file_" ""),
         Effect.getFile fetched.id,
         Effect.sendChatAction chat "UPLOAD_DOCUMENT",
         Effect.sendDocument chat fetched.title,
         Effect.answerCallback]) ∧
    (50000000 ≤ file_d.fileSize →
      drive_handler env noFailure cb chat msg locale =
        [Effect.getFile (pyStrReplace cb "drive_file_" ""),
         Effect.getFile fetched.id,
         Effect.sendMessage chat (tooBigText env locale file_d.alternateLink),
         Effect.answerCallback]) := by
  constructor
  · intro hsize
    simp only [drive_handler, hf, if_neg h1, if_neg h2]
    simp [fileBranch, noFailure, hd, if_pos hsize]
  · intro hsize
    have hns : ¬(file_d.fileSize < 50000000) := by omega
    simp only [drive_handler, hf, if_neg h1, if_neg h2]
    simp [fileBranch, noFailure, hd, if_neg hns]

/-- C4 (amended): the handler's final effect is the callback
acknowledgement on every branch EXCEPT the folder branch with a failed
listing, where the early `return` skips `update.callback_query.answer()`:
the trace ends with the acknowledgement iff the invocation is not a
folder-with-failed-listing one. -/
theorem drive_handler_ack_iff (env : DriveEnv) (flags : FailFlags)
    (cb : String) (chat msg : Int) (locale : String) :
    (drive_handler env flags cb chat msg locale).getLast? =
        some Effect.answerCallback ↔
      ¬((env.get_file (pyStrReplace cb "drive_file_" "")).mimeType = folderMime ∧
        env.list_files
          (some (env.get_file (pyStrReplace cb "drive_file_" "")).id) = none) := by
  by_cases hfolder :
      (env.get_file (pyStrReplace cb "drive_file_" "")).mimeType = folderMime
  · cases hlist : env.list_files
        (some (env.get_file (pyStrReplace cb "drive_file_" "")).id) with
    | none =>
      simp only [drive_handler, if_pos hfolder, hlist]
      simp [hfolder, hlist]
    | some file_list =>
      simp only [drive_handler, if_pos hfolder, hlist]
      simp [hfolder, hlist]
  · simp only [drive_handler, if_neg hfolder]
    by_cases hdoc :
        (env.get_file (pyStrReplace cb "drive_file_" "")).mimeType = docMime
    · rw [if_pos hdoc]
      constructor
      · intro _ hc
        exact hfolder hc.1
      · intro _
        rw [List.getLast?_cons_cons, List.getLast?_cons_cons, List.getLast?_singleton]
    · rw [if_neg hdoc]
      constructor
      · intro _ hc
        exact hfolder hc.1
      · intro _
        rw [← List.cons_append, List.getLast?_concat]

/-- C4 fails as stated: for a folder whose listing fails, the handler
returns without acknowledging the callback — the acknowledgement effect is
nowhere in the trace. -/
theorem drive_handler_listing_failure_no_ack :
    Effect.answerCallback ∉ drive_handler envFolderFail noFailure "cb" 7 9 "en" := by
  simp [drive_handler, envFolderFail, sampleFolder, folderMime]

/-- The `try` block itself never reports to the error collaborator. -/
theorem fileBranch_no_logError (env : DriveEnv) (flags : FailFlags)
    (chat : Int) (locale : String) (fetched : GoogleDriveFile) :
    ∀ e ∈ (fileBranch env flags chat locale fetched).1, isLogError e = false := by
  intro e he
  cases e <;> simp only [isLogError] <;> try rfl
  unfold fileBranch at he
  repeat' split at he
  all_goals simp_all
  all_goals (split at he <;> simp_all)

/-- C6: when any call inside the regular-file branch raises, the handler's
trace is exactly the effects completed before the failure, then a single
report to the error collaborator, then the callback acknowledgement: the
exception is caught at the outermost point of the branch, reported exactly
once, nothing propagates, and no further message is sent to the user. -/
theorem drive_handler_file_exception_caught (env : DriveEnv) (flags : FailFlags)
    (cb : String) (chat msg : Int) (locale : String)
    (fetched : GoogleDriveFile) (tr : List Effect) (err : String)
    (hf : env.get_file (pyStrReplace cb "drive_file_" "") = fetched)
    (h1 : fetched.mimeType ≠ folderMime) (h2 : fetched.mimeType ≠ docMime)
    (hfail : fileBranch env flags chat locale fetched = (tr, some err)) :
    drive_handler env flags cb chat msg locale =
      Effect.getFile (pyStrReplace cb "drive_file_" "") ::
        (tr ++ [Effect.logError "drive_handler", Effect.answerCallback]) ∧
    (drive_handler env flags cb chat msg locale).countP isLogError = 1 := by
  have htrace : drive_handler env flags cb chat msg locale =
      Effect.getFile (pyStrReplace cb "drive_file_" "") ::
        (tr ++ [Effect.logError "drive_handler", Effect.answerCallback]) := by
    simp only [drive_handler, hf, if_neg h1, if_neg h2, hfail]
    simp
  have h0 : tr.countP isLogError = 0 := by
    rw [List.countP_eq_zero]
    intro e he
    have := fileBranch_no_logError env flags chat locale fetched e
      (by rw [hfail]; exact he)
    simp [this]
  refine ⟨htrace, ?_⟩
  rw [htrace]
  simp [List.countP_cons, List.countP_append, isLogError, h0]

/-- Witness for C2: `sampleFolder` has the non-root parent `"pid"`. -/
theorem drive_handler_folder_back_row_witness :
    envFolderOk.get_file (pyStrReplace "cb" "drive_file_" "") = sampleFolder ∧
    sampleFolder.mimeType = folderMime ∧
    envFolderOk.list_files (some sampleFolder.id) = some [samplePdf] ∧
    (∃ base, get_files_keyboard [samplePdf] 2 = some base ∧
      ((sampleFolder.parents = [] ∨ sampleFolder.parents.headD "" = rootFolderId) →
        drive_handler envFolderOk noFailure "cb" 7 9 "en" =
          [Effect.getFile (pyStrReplace "cb" "drive_file_" ""),
           Effect.listFiles (some sampleFolder.id),
           Effect.editMessageMarkup 7 9 (sampleFolder.title ++ ":") base,
           Effect.answerCallback]) ∧
      (∀ p ps, sampleFolder.parents = p :: ps → p ≠ rootFolderId →
        drive_handler envFolderOk noFailure "cb" 7 9 "en" =
          [Effect.getFile (pyStrReplace "cb" "drive_file_" ""),
           Effect.listFiles (some sampleFolder.id),
           Effect.editMessageMarkup 7 9 (sampleFolder.title ++ ":")
             (base ++
               [[⟨envFolderOk.get_locale "en" .BACK_BUTTON_TEXT, "drive_file_" ++ p⟩]]),
           Effect.answerCallback])) :=
  ⟨rfl, rfl, rfl,
   drive_handler_folder_back_row envFolderOk noFailure "cb" 7 9 "en"
     sampleFolder [samplePdf] rfl rfl rfl⟩

/-- Witness for C3: size 49,999,999 streams and size 60,000,000 links. -/
theorem drive_handler_size_threshold_witness :
    smallFile.fileSize < 50000000 ∧ (50000000 : Int) ≤ bigFile.fileSize ∧
    drive_handler envSmall noFailure "x" 5 6 "en" =
      [Effect.getFile (pyStrReplace "x" "drive_file_" ""),
       Effect.getFile smallFile.id,
       Effect.sendChatAction 5 "UPLOAD_DOCUMENT",
       Effect.sendDocument 5 smallFile.title,
       Effect.answerCallback] ∧
    drive_handler envBig noFailure "x" 5 6 "en" =
      [Effect.getFile (pyStrReplace "x" "drive_file_" ""),
       Effect.getFile bigFile.id,
       Effect.sendMessage 5 (tooBigText envBig "en" bigFile.alternateLink),
       Effect.answerCallback] :=
  ⟨by decide, by decide,
   (drive_handler_size_threshold envSmall "x" 5 6 "en" smallFile smallFile
     rfl (by decide) (by decide) rfl).1 (by decide),
   (drive_handler_size_threshold envBig "x" 5 6 "en" bigFile bigFile
     rfl (by decide) (by decide) rfl).2 (by decide)⟩

/-- Witness for C6: `bot.sendDocument` raises on a small file. -/
theorem drive_handler_file_exception_caught_witness :
    fileBranch envSmall failDocFlags 5 "en" smallFile =
      ([Effect.getFile smallFile.id, Effect.sendChatAction 5 "UPLOAD_DOCUMENT"],
       some "sendDocument") ∧
    drive_handler envSmall failDocFlags "x" 5 6 "en" =
      Effect.getFile (pyStrReplace "x" "drive_file_" "") ::
        ([Effect.getFile smallFile.id, Effect.sendChatAction 5 "UPLOAD_DOCUMENT"] ++
          [Effect.logError "drive_handler", Effect.answerCallback]) ∧
    (drive_handler envSmall failDocFlags "x" 5 6 "en").countP isLogError = 1 :=
  ⟨by decide,
   drive_handler_file_exception_caught envSmall failDocFlags "x" 5 6 "en"
     smallFile [Effect.getFile smallFile.id, Effect.sendChatAction 5 "UPLOAD_DOCUMENT"]
     "sendDocument" rfl (by decide) (by decide) (by decide)⟩
end Gdrive
